import Mathlib

/-!
Verification of the Fomu workshop SoC build script (`src/litex/workshop.py`).

The script configures a LiteX SoC: it declares a class-level CSR index table
(`BaseSoC.csr_map`), registers a 128 KiB SPRAM memory region, mutates the
toolchain command templates in place (density flags on the synthesis line,
`--seed` and optionally `--placer` on the place-and-route line), and exposes a
CLI (`--seed`, `--placer`, `--no-pll`).

Pure parts of the script (the CSR table, the template mutations, the CLI
argument flow) are embedded directly.  Operations whose implementation lives
in external collaborators (LiteX's CSR allocator and `register_mem`, the
command builder, argparse's `choices` enforcement) are modelled from the
specification, each marked `Modelled from the spec:` in its doc comment.
-/

/-- Error vocabulary of the specification (§7). -/
inductive WErr where
  | DuplicateIndex
  | Overlap
  | InvalidSize
  | RoleNotSupported
  | DuplicateAttachment
  | DuplicateOverride
  | InvalidConfiguration
  deriving DecidableEq, Repr

/-! ## Toolchain command templates

The script mutates `platform.toolchain.nextpnr_yosys_template[2]` and
`platform.toolchain.nextpnr_build_template[1]` by string concatenation
(`+=`).  We model the two templates as lists of strings and the in-place
`lst[i] += s` as a functional update. -/

/-- The two LiteX toolchain command templates the script mutates.  Each is an
ordered list of command strings; the script addresses entries by fixed
numeric position (index 2 of the yosys template is the synthesis line, index
1 of the build template is the nextpnr invocation). -/
structure Toolchain where
  nextpnr_yosys_template : List String
  nextpnr_build_template : List String
  deriving DecidableEq, Repr

/-- Read entry `i` of a template (empty string when out of range). -/
def entry (l : List String) (i : Nat) : String :=
  (l.get? i).getD ""

/-- Python `lst[i] += s`: replace entry `i` by itself with `s` appended. -/
def appendAt (l : List String) (i : Nat) (s : String) : List String :=
  l.set i (entry l i ++ s)

/-- `BaseSoC.__init__`'s effect on the toolchain templates
(src/litex/workshop.py lines 69-83): append the density flags to the
synthesis line, append `" --seed " + str(pnr_seed)` to the nextpnr line, and
when a placer was supplied append `" --placer " + placer` as well. -/
def baseSoCInit (tc : Toolchain) (placer : Option String) (pnr_seed : String) :
    Toolchain :=
  let tc1 : Toolchain :=
    { tc with nextpnr_yosys_template :=
        appendAt tc.nextpnr_yosys_template 2 " -relut -dffe_min_ce_use 4" }
  let tc2 : Toolchain :=
    { tc1 with nextpnr_build_template :=
        appendAt tc1.nextpnr_build_template 1 (" --seed " ++ pnr_seed) }
  match placer with
  | none => tc2
  | some p =>
      { tc2 with nextpnr_build_template :=
          appendAt tc2.nextpnr_build_template 1 (" --placer " ++ p) }

/-! ## CLI surface (`main`, src/litex/workshop.py lines 85-104) -/

/-- Parsed command-line arguments.  `--seed` is declared without a `type=`
converter, so argparse keeps whatever string the user supplied; its default
is the integer `0`.  `--placer` has no default, so it is `none` when
absent. -/
structure Args where
  seed : Option String
  placer : Option String
  no_pll : Bool
  deriving DecidableEq, Repr

/-- The string `main` hands to `BaseSoC` as `pnr_seed`: `str(args.seed)`,
which is `"0"` for the integer default and the verbatim CLI string
otherwise. -/
def seedOf (seed : Option String) : String :=
  seed.getD "0"

/-- Modelled from the spec: argparse's enforcement of
`choices=["sa", "heap"]` on `--placer` is stdlib behaviour not present in
src; the spec says an invalid value is a configuration error detected before
any toolchain process is spawned. -/
def parsePlacer : Option String → Except WErr (Option String)
  | none => .ok none
  | some p => if p = "sa" ∨ p = "heap" then .ok (some p) else .error .InvalidConfiguration

/-- `main`: parse the arguments (argparse validates `--placer` here, before
any platform or builder object exists), then construct the SoC, which
mutates the toolchain templates.  An `.error` result means no toolchain
process was ever spawned. -/
def mainModel (tc : Toolchain) (a : Args) : Except WErr Toolchain :=
  match parsePlacer a.placer with
  | .error e => .error e
  | .ok p => .ok (baseSoCInit tc p (seedOf a.seed))

/-- Suffix the placer branch appends to the nextpnr line. -/
def placerSuffix : Option String → String
  | none => ""
  | some p => " --placer " ++ p

/-! ## Space tokenization

The script appends flags by string concatenation; the claims speak about the
commands' token sequences.  `splitWords` splits a character list at every
space (the semantics of splitting on a one-character separator), and
`stringTokens` lifts it to strings. -/

/-- Split a character list at every space character. -/
def splitWords : List Char → List (List Char)
  | [] => [[]]
  | c :: cs =>
      let r := splitWords cs
      if c = ' ' then [] :: r else (c :: r.headD []) :: r.tail

/-- The space-separated tokens of a string. -/
def stringTokens (s : String) : List String :=
  (splitWords s.data).map String.mk

/-! ## CSR slot allocation

`BaseSoC.csr_map` (src/litex/workshop.py lines 29-43) is the configured CSR
table.  The allocator that accepts or rejects registrations lives in the
LiteX collaborator, so it is modelled from the spec (§4.1). -/

/-- A named CSR slot with its index (spec §3). -/
structure CsrSlot where
  name : String
  index : Nat
  deriving DecidableEq, Repr

/-- Indices already taken by the registered slots. -/
def usedIndices (slots : List CsrSlot) : List Nat :=
  slots.map CsrSlot.index

/-- First index at or after `n` not in `used`, with explicit fuel. -/
def lowestUnusedAux (used : List Nat) : Nat → Nat → Nat
  | 0, n => n
  | fuel + 1, n => if n ∈ used then lowestUnusedAux used fuel (n + 1) else n

/-- The lowest unused non-negative integer index.  `used.length + 1` probes
always suffice, by pigeonhole. -/
def lowestUnused (used : List Nat) : Nat :=
  lowestUnusedAux used (used.length + 1) 0

/-- Modelled from the spec: the CSR allocator (`AddressSpaceAllocator.register`,
spec §4.1) is LiteX collaborator code not present in src.  An omitted index
gets the lowest unused non-negative integer; a supplied index that collides
with an already-registered slot fails with `DuplicateIndex`.  Returns the new
slot list and the assigned index. -/
def csrRegister (slots : List CsrSlot) (nm : String) (req : Option Nat) :
    Except WErr (List CsrSlot × Nat) :=
  match req with
  | some i =>
      if i ∈ usedIndices slots then .error .DuplicateIndex
      else .ok (slots ++ [⟨nm, i⟩], i)
  | none =>
      let i := lowestUnused (usedIndices slots)
      .ok (slots ++ [⟨nm, i⟩], i)

/-- Run a sequence of registrations; a rejected registration leaves the
accepted slots unchanged. -/
def runCsr (slots : List CsrSlot) : List (String × Option Nat) → List CsrSlot
  | [] => slots
  | (nm, req) :: rest =>
      match csrRegister slots nm req with
      | .error _ => runCsr slots rest
      | .ok (slots', _) => runCsr slots' rest

/-- A request list with every index explicit. -/
def explicitReqs (reqs : List (String × Nat)) : List (String × Option Nat) :=
  reqs.map fun r => (r.1, some r.2)

/-- The configured CSR table, verbatim from `BaseSoC.csr_map`
(src/litex/workshop.py lines 29-43). -/
def csr_map : List (String × Nat) :=
  [("ctrl", 0), ("crg", 1), ("uart_phy", 2), ("uart", 3),
   ("identifier_mem", 4), ("timer0", 5), ("cpu_or_bridge", 8), ("usb", 9),
   ("picorvspi", 10), ("touch", 11), ("reboot", 12), ("rgb", 13),
   ("version", 14)]

/-! ## Memory region registry

`BaseSoC.__init__` registers the SPRAM region with
`self.register_mem("sram", 0x10000000, self.spram.bus, spram_size)` where
`spram_size = 128*1024 = 0x20000` (src/litex/workshop.py lines 56-60).
`register_mem` itself is LiteX collaborator code, so it is modelled from the
spec (§4.2). -/

/-- A named memory region on a bus (spec §3). -/
structure MemRegion where
  name : String
  base : Nat
  size : Nat
  bus : Nat
  deriving DecidableEq, Repr

/-- Two regions overlap when they sit on the same bus and their
`[base, base+size)` intervals intersect. -/
def overlapsB (a b : MemRegion) : Bool :=
  a.bus == b.bus && a.base < b.base + b.size && b.base < a.base + a.size

/-- Modelled from the spec: `MemoryRegionRegistry.register` (spec §4.2,
called as `register_mem` in src) is LiteX collaborator code not present in
src.  A zero size fails with `InvalidSize`; an interval intersecting an
existing region on the same bus fails with `Overlap`. -/
def register_mem (regs : List MemRegion) (nm : String) (base size bus : Nat) :
    Except WErr (List MemRegion) :=
  if size = 0 then .error .InvalidSize
  else if regs.any (fun r => overlapsB r ⟨nm, base, size, bus⟩) then .error .Overlap
  else .ok (regs ++ [⟨nm, base, size, bus⟩])

/-- A memory-region registration request. -/
structure MemReq where
  name : String
  base : Nat
  size : Nat
  bus : Nat
  deriving DecidableEq, Repr

/-- Run a sequence of region registrations; a rejected registration leaves
the accepted regions unchanged. -/
def runMem (regs : List MemRegion) : List MemReq → List MemRegion
  | [] => regs
  | q :: rest =>
      match register_mem regs q.name q.base q.size q.bus with
      | .error _ => runMem regs rest
      | .ok regs' => runMem regs' rest

/-- Pairwise disjointness of the accepted regions. -/
def memDisjoint (regs : List MemRegion) : Prop :=
  regs.Pairwise fun a b => overlapsB a b = false

/-! ## Toolchain command builder

The template mutations in src (lines 69-83) are bare `+=` statements with no
duplicate detection; the spec's §4.4 `ToolchainCommandBuilder` — named
overrides with `DuplicateOverride` rejection and a `render` operation — is
collaborator/design code not present in src, so it is modelled from the
spec. -/

/-- A pipeline stage's command under construction (spec §3, §4.4): the
stage name, the ordered token sequence of its command, and the names of the
overrides already applied, in application order. -/
structure ToolchainStage where
  name : String
  command : List String
  applied : List String
  deriving DecidableEq, Repr

/-- Modelled from the spec: `ToolchainCommandBuilder.build_stage` (spec
§4.4) is not present in src; a fresh stage holds the default tokens and no
applied overrides. -/
def build_stage (nm : String) (defaults : List String) : ToolchainStage :=
  ⟨nm, defaults, []⟩

/-- Modelled from the spec: `ToolchainCommandBuilder.apply_override` (spec
§4.4) is not present in src; it appends the override's tokens strictly after
the existing command tokens, and rejects a second application of the same
named override with `DuplicateOverride`. -/
def apply_override (st : ToolchainStage) (ovName : String)
    (tokenSeq : List String) : Except WErr ToolchainStage :=
  if ovName ∈ st.applied then .error .DuplicateOverride
  else .ok ⟨st.name, st.command ++ tokenSeq, st.applied ++ [ovName]⟩

/-- Modelled from the spec: `ToolchainCommandBuilder.render` (spec §4.4) is
not present in src; it yields the stage's ordered token sequence. -/
def render (st : ToolchainStage) : List String :=
  st.command

/-- Apply a list of named overrides in order, stopping at the first
failure. -/
def applyAll (st : ToolchainStage) :
    List (String × List String) → Except WErr ToolchainStage
  | [] => .ok st
  | (nm, ts) :: rest =>
      match apply_override st nm ts with
      | .error e => .error e
      | .ok st' => applyAll st' rest

/-- The rendered token sequence of a finished build, when it succeeded. -/
def renderResult : Except WErr ToolchainStage → Option (List String)
  | .ok st => some (render st)
  | .error _ => none

/-- Tokens the placer branch contributes to the nextpnr line. -/
def placerTokens : Option String → List String
  | none => []
  | some p => "--placer" :: stringTokens p

/-! ## Supporting lemmas -/

theorem length_appendAt (l : List String) (i : Nat) (s : String) :
    (appendAt l i s).length = l.length := by
  simp [appendAt]

theorem entry_appendAt_self (l : List String) (i : Nat) (s : String)
    (h : i < l.length) : entry (appendAt l i s) i = entry l i ++ s := by
  induction l generalizing i with
  | nil => simp at h
  | cons x xs ih =>
      cases i with
      | zero => simp [appendAt, entry]
      | succ j =>
          have hj : j < xs.length := Nat.lt_of_succ_lt_succ h
          simpa [appendAt, entry] using ih j hj

theorem entry_appendAt_ne (l : List String) (i j : Nat) (s : String)
    (h : j ≠ i) : entry (appendAt l i s) j = entry l j := by
  induction l generalizing i j with
  | nil => simp [appendAt, entry]
  | cons x xs ih =>
      cases i with
      | zero =>
          cases j with
          | zero => exact absurd rfl h
          | succ j' => simp [appendAt, entry]
      | succ i' =>
          cases j with
          | zero => simp [appendAt, entry]
          | succ j' =>
              have hj : j' ≠ i' := fun hh => h (by simp [hh])
              simpa [appendAt, entry] using ih i' j' hj

theorem splitWords_ne_nil (l : List Char) : splitWords l ≠ [] := by
  cases l with
  | nil => simp [splitWords]
  | cons c cs =>
      by_cases h : c = ' ' <;> simp [splitWords, h]

theorem splitWords_append (a b : List Char) :
    splitWords (a ++ ' ' :: b) = splitWords a ++ splitWords b := by
  induction a with
  | nil => simp [splitWords]
  | cons c cs ih =>
      by_cases h : c = ' '
      · simp [splitWords, h, ih]
      · obtain ⟨w, ws, hw⟩ := List.exists_cons_of_ne_nil (splitWords_ne_nil cs)
        simp [splitWords, h, ih, hw]

/-- Tokenization splits a concatenation at a space between the parts. -/
theorem stringTokens_split (a b c : String)
    (h : c.data = a.data ++ ' ' :: b.data) :
    stringTokens c = stringTokens a ++ stringTokens b := by
  simp [stringTokens, h, splitWords_append]

theorem usedIndices_append (slots : List CsrSlot) (s : CsrSlot) :
    usedIndices (slots ++ [s]) = usedIndices slots ++ [s.index] := by
  simp [usedIndices]

/-- Explicit registrations preserve distinctness of accepted indices. -/
theorem runCsr_explicit_nodup (reqs : List (String × Nat)) (slots : List CsrSlot)
    (h : (usedIndices slots).Nodup) :
    (usedIndices (runCsr slots (explicitReqs reqs))).Nodup := by
  induction reqs generalizing slots with
  | nil => simpa [explicitReqs, runCsr] using h
  | cons r rest ih =>
      by_cases hc : r.2 ∈ usedIndices slots
      · simpa [explicitReqs, runCsr, csrRegister, hc] using ih slots h
      · have h' : (usedIndices (slots ++ [⟨r.1, r.2⟩])).Nodup := by
          rw [usedIndices_append]
          simpa [List.nodup_append, h] using hc
        simpa [explicitReqs, runCsr, csrRegister, hc] using
          ih (slots ++ [⟨r.1, r.2⟩]) h'

theorem overlapsB_symm (a b : MemRegion) : overlapsB a b = overlapsB b a := by
  rw [Bool.eq_iff_iff]
  simp only [overlapsB, Bool.and_eq_true, beq_iff_eq, decide_eq_true_eq]
  constructor
  · rintro ⟨⟨h1, h2⟩, h3⟩
    exact ⟨⟨h1.symm, h3⟩, h2⟩
  · rintro ⟨⟨h1, h2⟩, h3⟩
    exact ⟨⟨h1.symm, h3⟩, h2⟩

/-- Accepted registrations preserve pairwise disjointness. -/
theorem runMem_disjoint (reqs : List MemReq) (regs : List MemRegion)
    (h : memDisjoint regs) : memDisjoint (runMem regs reqs) := by
  induction reqs generalizing regs with
  | nil => simpa [runMem] using h
  | cons q rest ih =>
      by_cases h0 : q.size = 0
      · simpa [runMem, register_mem, h0] using ih regs h
      · cases hov : regs.any (fun r => overlapsB r ⟨q.name, q.base, q.size, q.bus⟩) with
        | true => simpa [runMem, register_mem, h0, hov] using ih regs h
        | false =>
          have hall : ∀ r ∈ regs, overlapsB r ⟨q.name, q.base, q.size, q.bus⟩ = false := by
            intro r hr
            have hx := List.any_eq_false.mp hov r hr
            simpa using hx
          have h' : memDisjoint (regs ++ [⟨q.name, q.base, q.size, q.bus⟩]) := by
            unfold memDisjoint
            rw [List.pairwise_append]
            refine ⟨h, by simp, ?_⟩
            intro a ha b hb
            simp at hb
            subst hb
            exact hall a ha
          simpa [runMem, register_mem, h0, hov] using
            ih (regs ++ [⟨q.name, q.base, q.size, q.bus⟩]) h'

/-- The rendered outcome ignores the stage's name: it is a function of the
command tokens and the applied-override names only. -/
theorem applyAll_name_irrel (ovs : List (String × List String))
    (c ap : List String) (n1 n2 : String) :
    renderResult (applyAll ⟨n1, c, ap⟩ ovs) =
      renderResult (applyAll ⟨n2, c, ap⟩ ovs) := by
  induction ovs generalizing c ap with
  | nil => rfl
  | cons ov rest ih =>
      by_cases hm : ov.1 ∈ ap
      · simp [applyAll, apply_override, hm]
      · simpa [applyAll, apply_override, hm] using
          ih (c ++ ov.2) (ap ++ [ov.1])

theorem tokens_relut_append (a : String) :
    stringTokens (a ++ " -relut -dffe_min_ce_use 4")
      = stringTokens a ++ ["-relut", "-dffe_min_ce_use", "4"] := by
  have h := stringTokens_split a "-relut -dffe_min_ce_use 4"
    (a ++ " -relut -dffe_min_ce_use 4") (by rw [String.data_append])
  simpa using h

theorem tokens_seed_append (a seed : String) :
    stringTokens (a ++ (" --seed " ++ seed))
      = stringTokens a ++ "--seed" :: stringTokens seed := by
  have h1 := stringTokens_split a ("--seed " ++ seed) (a ++ (" --seed " ++ seed))
    (by rw [String.data_append, String.data_append, String.data_append]; rfl)
  have h2 := stringTokens_split "--seed" seed ("--seed " ++ seed)
    (by rw [String.data_append]; rfl)
  rw [h1, h2]
  rfl

theorem tokens_placer_append (a p : String) :
    stringTokens (a ++ (" --placer " ++ p))
      = stringTokens a ++ "--placer" :: stringTokens p := by
  have h1 := stringTokens_split a ("--placer " ++ p) (a ++ (" --placer " ++ p))
    (by rw [String.data_append, String.data_append, String.data_append]; rfl)
  have h2 := stringTokens_split "--placer" p ("--placer " ++ p)
    (by rw [String.data_append]; rfl)
  rw [h1, h2]
  rfl

/-! ## Claims -/

/-- Claim C1: every sequence of CSR registrations with explicit indices
yields accepted slots with pairwise-distinct indices; in particular the
configured `csr_map` table maps every name to a distinct index, and running
its thirteen entries through the allocator accepts them all with exactly the
configured indices. -/
theorem claim_C1 :
    (∀ reqs : List (String × Nat),
        (usedIndices (runCsr [] (explicitReqs reqs))).Nodup)
    ∧ (csr_map.map Prod.snd).Nodup
    ∧ usedIndices (runCsr [] (explicitReqs csr_map)) = csr_map.map Prod.snd :=
  ⟨fun reqs => runCsr_explicit_nodup reqs [] (by simp [usedIndices]),
   by decide, rfl⟩

/-- Claim C2: every sequence of memory-region registrations leaves the
accepted regions pairwise disjoint per bus; concretely, after accepting
`(sram, 0x10000000, 0x20000)` a registration of `(0x10010000, 0x1000)` on
the same bus is rejected with `Overlap`. -/
theorem claim_C2 :
    (∀ reqs : List MemReq, memDisjoint (runMem [] reqs))
    ∧ register_mem [] "sram" 0x10000000 0x20000 0
        = .ok [⟨"sram", 0x10000000, 0x20000, 0⟩]
    ∧ register_mem [⟨"sram", 0x10000000, 0x20000, 0⟩] "second" 0x10010000 0x1000 0
        = .error .Overlap :=
  ⟨fun reqs => runMem_disjoint reqs [] (by simp [memDisjoint]), rfl, rfl⟩

/-- Claim C3: after registering `ctrl` at 0, `usb` at 9 and `touch` at 11,
registering `uart` without an explicit index assigns index 1, the lowest
unused non-negative integer. -/
theorem claim_C3 :
    csrRegister (runCsr [] [("ctrl", some 0), ("usb", some 9), ("touch", some 11)])
        "uart" none
      = .ok ([⟨"ctrl", 0⟩, ⟨"usb", 9⟩, ⟨"touch", 11⟩, ⟨"uart", 1⟩], 1) := rfl

/-- Claim C4: applying the same named override to a stage a second time
fails with `DuplicateOverride`. -/
theorem claim_C4 (st st' : ToolchainStage) (nm : String) (t1 t2 : List String)
    (h : apply_override st nm t1 = .ok st') :
    apply_override st' nm t2 = .error .DuplicateOverride := by
  by_cases hm : nm ∈ st.applied
  · simp [apply_override, hm] at h
  · simp [apply_override, hm] at h
    subst h
    simp [apply_override]

/-- Witness for C4: re-applying the `seed` override after a first successful
application is rejected. -/
theorem claim_C4_witness :
    apply_override ⟨"pnr", ["nextpnr-ice40", "--seed", "0"], ["seed"]⟩ "seed"
        ["--seed", "1"]
      = .error .DuplicateOverride :=
  claim_C4 ⟨"pnr", ["nextpnr-ice40"], []⟩
    ⟨"pnr", ["nextpnr-ice40", "--seed", "0"], ["seed"]⟩
    "seed" ["--seed", "0"] ["--seed", "1"] (by rfl)

/-- Claim C7: rendering is deterministic — two stages built from the same
defaults with the same overrides applied in the same order render to the
same token sequence (the outcome does not depend on the stage identity). -/
theorem claim_C7 (n1 n2 : String) (defaults : List String)
    (ovs : List (String × List String)) :
    renderResult (applyAll (build_stage n1 defaults) ovs) =
      renderResult (applyAll (build_stage n2 defaults) ovs) :=
  applyAll_name_irrel ovs defaults [] n1 n2

/-- Claim C8: registering a memory region with size 0 always fails with
`InvalidSize`, whatever the name, base address, bus, and existing
regions. -/
theorem claim_C8 (regs : List MemRegion) (nm : String) (base bus : Nat) :
    register_mem regs nm base 0 bus = .error .InvalidSize := rfl

/-- Claim C5: every override applied by `BaseSoC.__init__` appends its
tokens strictly after the existing tokens of the stage's command: the prior
token sequence of the synthesis line and of the nextpnr line is a prefix of
the resulting sequence (the new sequence is the old one followed by the
appended tokens, so nothing prior is replaced or reordered). -/
theorem claim_C5 (tc : Toolchain) (placer : Option String) (seed : String)
    (h2 : 2 < tc.nextpnr_yosys_template.length)
    (h1 : 1 < tc.nextpnr_build_template.length) :
    stringTokens (entry (baseSoCInit tc placer seed).nextpnr_yosys_template 2)
      = stringTokens (entry tc.nextpnr_yosys_template 2)
          ++ ["-relut", "-dffe_min_ce_use", "4"]
    ∧ stringTokens (entry (baseSoCInit tc placer seed).nextpnr_build_template 1)
      = stringTokens (entry tc.nextpnr_build_template 1)
          ++ ["--seed"] ++ stringTokens seed ++ placerTokens placer := by
  constructor
  · have hy : (baseSoCInit tc placer seed).nextpnr_yosys_template
        = appendAt tc.nextpnr_yosys_template 2 " -relut -dffe_min_ce_use 4" := by
      cases placer <;> rfl
    rw [hy, entry_appendAt_self _ _ _ h2, tokens_relut_append]
  · cases placer with
    | none =>
        have hb : (baseSoCInit tc none seed).nextpnr_build_template
            = appendAt tc.nextpnr_build_template 1 (" --seed " ++ seed) := rfl
        rw [hb, entry_appendAt_self _ _ _ h1, tokens_seed_append]
        simp [placerTokens]
    | some p =>
        have hb : (baseSoCInit tc (some p) seed).nextpnr_build_template
            = appendAt (appendAt tc.nextpnr_build_template 1 (" --seed " ++ seed))
                1 (" --placer " ++ p) := rfl
        have h1' :
            1 < (appendAt tc.nextpnr_build_template 1 (" --seed " ++ seed)).length := by
          rw [length_appendAt]; exact h1
        rw [hb, entry_appendAt_self _ _ _ h1', entry_appendAt_self _ _ _ h1,
            tokens_placer_append, tokens_seed_append]
        simp [placerTokens]

/-- Witness for C5: a concrete toolchain with a three-entry yosys template
and a two-entry build template, placer `heap`, seed `3`. -/
theorem claim_C5_witness :
    stringTokens (entry (baseSoCInit ⟨["read", "synth", "yosys run"], ["pack", "nextpnr run"]⟩
          (some "heap") "3").nextpnr_yosys_template 2)
      = stringTokens (entry (⟨["read", "synth", "yosys run"], ["pack", "nextpnr run"]⟩ :
            Toolchain).nextpnr_yosys_template 2)
          ++ ["-relut", "-dffe_min_ce_use", "4"]
    ∧ stringTokens (entry (baseSoCInit ⟨["read", "synth", "yosys run"], ["pack", "nextpnr run"]⟩
          (some "heap") "3").nextpnr_build_template 1)
      = stringTokens (entry (⟨["read", "synth", "yosys run"], ["pack", "nextpnr run"]⟩ :
            Toolchain).nextpnr_build_template 1)
          ++ ["--seed"] ++ stringTokens "3" ++ placerTokens (some "heap") :=
  claim_C5 ⟨["read", "synth", "yosys run"], ["pack", "nextpnr run"]⟩ (some "heap") "3"
    (by decide) (by decide)

/-- Claim C6: a `--placer` value outside the enumerated set causes `main`'s
argument parsing to fail with `InvalidConfiguration` before any SoC is
constructed or toolchain process spawned (the model returns an error and no
toolchain state). -/
theorem claim_C6 (tc : Toolchain) (a : Args) (v : String)
    (hp : a.placer = some v) (h1 : v ≠ "sa") (h2 : v ≠ "heap") :
    mainModel tc a = .error .InvalidConfiguration := by
  simp [mainModel, parsePlacer, hp, h1, h2]

/-- Witness for C6: `--placer bogus` is rejected. -/
theorem claim_C6_witness :
    mainModel ⟨[], []⟩ ⟨some "1", some "bogus", false⟩
      = .error .InvalidConfiguration :=
  claim_C6 ⟨[], []⟩ ⟨some "1", some "bogus", false⟩ "bogus" rfl (by decide) (by decide)

/-- Claim C9: the seed override is applied unconditionally: whatever the
placer option, the nextpnr line always receives `" --seed "` followed by the
seed string; the CLI default yields `"0"`, and any supplied string is passed
through verbatim (never converted to an integer). -/
theorem claim_C9 (tc : Toolchain) (placer : Option String) (cliSeed : Option String)
    (h1 : 1 < tc.nextpnr_build_template.length) :
    entry (baseSoCInit tc placer (seedOf cliSeed)).nextpnr_build_template 1
      = entry tc.nextpnr_build_template 1 ++ " --seed " ++ seedOf cliSeed
          ++ placerSuffix placer
    ∧ seedOf none = "0"
    ∧ ∀ s : String, seedOf (some s) = s := by
  refine ⟨?_, rfl, fun s => rfl⟩
  cases placer with
  | none =>
      show entry (appendAt tc.nextpnr_build_template 1 (" --seed " ++ seedOf cliSeed)) 1 = _
      rw [entry_appendAt_self _ _ _ h1]
      simp [placerSuffix, String.append_assoc, String.append_empty]
  | some p =>
      have h1' :
          1 < (appendAt tc.nextpnr_build_template 1 (" --seed " ++ seedOf cliSeed)).length := by
        rw [length_appendAt]; exact h1
      show entry (appendAt (appendAt tc.nextpnr_build_template 1
          (" --seed " ++ seedOf cliSeed)) 1 (" --placer " ++ p)) 1 = _
      rw [entry_appendAt_self _ _ _ h1', entry_appendAt_self _ _ _ h1]
      simp [placerSuffix, String.append_assoc]

/-- Witness for C9: a two-entry build template, no placer, CLI seed
`banana`. -/
theorem claim_C9_witness :
    entry (baseSoCInit ⟨[], ["pack", "nextpnr run"]⟩ none
          (seedOf (some "banana"))).nextpnr_build_template 1
      = entry (⟨[], ["pack", "nextpnr run"]⟩ : Toolchain).nextpnr_build_template 1
          ++ " --seed " ++ seedOf (some "banana") ++ placerSuffix none
    ∧ seedOf none = "0"
    ∧ ∀ s : String, seedOf (some s) = s :=
  claim_C9 ⟨[], ["pack", "nextpnr run"]⟩ none (some "banana") (by decide)

/-- Claim C10: with no placer supplied (the argparse default `none`), the
placer branch never runs: the build template is exactly the seed append —
entry 1 gains only `" --seed " ++ seed`, every other entry is unchanged —
and `main`'s parsing maps an absent `--placer` to `none`. -/
theorem claim_C10 (tc : Toolchain) (seed : String)
    (h1 : 1 < tc.nextpnr_build_template.length) :
    (baseSoCInit tc none seed).nextpnr_build_template
      = appendAt tc.nextpnr_build_template 1 (" --seed " ++ seed)
    ∧ entry (baseSoCInit tc none seed).nextpnr_build_template 1
        = entry tc.nextpnr_build_template 1 ++ " --seed " ++ seed
    ∧ (∀ j, j ≠ 1 → entry (baseSoCInit tc none seed).nextpnr_build_template j
        = entry tc.nextpnr_build_template j)
    ∧ parsePlacer none = .ok none := by
  refine ⟨rfl, ?_, ?_, rfl⟩
  · show entry (appendAt tc.nextpnr_build_template 1 (" --seed " ++ seed)) 1 = _
    rw [entry_appendAt_self _ _ _ h1, String.append_assoc]
  · intro j hj
    exact entry_appendAt_ne _ _ _ _ hj

/-- Witness for C10: a two-entry build template and seed `7`. -/
theorem claim_C10_witness :
    (baseSoCInit ⟨[], ["pack", "nextpnr run"]⟩ none "7").nextpnr_build_template
      = appendAt (["pack", "nextpnr run"] : List String) 1 (" --seed " ++ "7")
    ∧ entry (baseSoCInit ⟨[], ["pack", "nextpnr run"]⟩ none "7").nextpnr_build_template 1
        = entry (["pack", "nextpnr run"] : List String) 1 ++ " --seed " ++ "7"
    ∧ (∀ j, j ≠ 1 → entry (baseSoCInit ⟨[], ["pack", "nextpnr run"]⟩ none
            "7").nextpnr_build_template j
        = entry (["pack", "nextpnr run"] : List String) j)
    ∧ parsePlacer none = .ok none :=
  claim_C10 ⟨[], ["pack", "nextpnr run"]⟩ "7" (by decide)
